import Mathlib

/-!
Verification development for the `wiz` repository (registry aggregation and
installation pipeline in `source/wiz/registry.py`, process execution layer in
`source/wiz/spawn.py`).  Python functions are shallowly embedded as Lean
functions; external collaborators (filesystem accessibility, the definition
store adapter, the HTTP client) are passed in as explicit oracle parameters.
Filesystem paths are strings; `os.path.abspath` is modelled as the identity on
inputs that are already normalized absolute paths, so embedded functions take
the post-`abspath` path.
-/

namespace Wiz

/-- Model of Python `p` being an initial run of `s` at the character-list
level: used to embed `str.startswith` and (via reversal) `str.endswith`. -/
def leadsWith : List Char → List Char → Bool
  | [], _ => true
  | _ :: _, [] => false
  | a :: as, b :: bs => a == b && leadsWith as bs

/-- Model of Python `s.startswith(p)`. -/
def py_startswith (s p : String) : Bool :=
  leadsWith p.data s.data

/-- Model of Python `s.endswith(p)`. -/
def py_endswith (s p : String) : Bool :=
  leadsWith p.data.reverse s.data.reverse

/-- Model of Python `str.split(sep)` at the character-list level: splits on
every occurrence of `sep`, keeping empty runs, as Python does. -/
def splitChar (sep : Char) : List Char → List (List Char)
  | [] => [[]]
  | c :: cs =>
    if c = sep then [] :: splitChar sep cs
    else
      match splitChar sep cs with
      | [] => [[c]]
      | a :: as => (c :: a) :: as

/-- Model of Python `s.split(sep)` for a one-character separator. -/
def py_split (s : String) (sep : Char) : List String :=
  (splitChar sep s.data).map fun l => ⟨l⟩

/-- Model of Python `os.path.join(a, b)` on POSIX: an absolute second
component replaces the first, an empty first component is dropped, and a
separator is inserted unless the first component already ends with one. -/
def os_path_join (a b : String) : String :=
  if py_startswith b "/" then b
  else if a = "" then b
  else if py_endswith a "/" then a ++ b
  else a ++ "/" ++ b

/-- Model of Python `"{}".format(x)` on an optional string: `None` prints as
`"None"`. -/
def py_str_opt : Option String → String
  | none => "None"
  | some v => v

/-- Model of Python `json.dumps` on a boolean. -/
def json_dumps_bool : Bool → String
  | true => "true"
  | false => "false"

/-- An environment definition as seen by this core: identifier, optional
version, and the canonical serialized form produced by `encode()`. -/
structure Definition where
  identifier : String
  version : Option String
  encoded : String
deriving DecidableEq, Repr

/-- The fixed discovery root `os.path.join(os.sep, "jobs", "ads")` from
`registry.discover`. -/
def discoveryRoot : String :=
  os_path_join (os_path_join "/" "jobs") "ads"

/-- The loop of `registry.discover`: walk the folders below the root,
extending the running path, probing `<level>/.wiz/registry` for
accessibility at each level.  Instrumented: returns the list of probed
paths (first component) alongside the yielded accessible ones (second
component). -/
def discover_loop (acc : String → Bool) : String → List String → List String × List String
  | _, [] => ([], [])
  | pfx, folder :: rest =>
    let pfx2 := os_path_join pfx folder
    let registry_path := os_path_join (os_path_join pfx2 ".wiz") "registry"
    let r := discover_loop acc pfx2 rest
    (registry_path :: r.1, if acc registry_path then registry_path :: r.2 else r.2)

/-- Instrumented embedding of `registry.discover` (module
`source/wiz/registry.py`): the argument is the path after
`os.path.abspath`; `acc` models `wiz.filesystem.is_accessible`.  Returns
(probed accessibility-check paths, yielded registry paths). -/
def discover_instr (acc : String → Bool) (path : String) : List String × List String :=
  if py_startswith path discoveryRoot then
    discover_loop acc discoveryRoot ((py_split path '/').drop 3)
  else ([], [])

/-- The sequence yielded by `registry.discover`. -/
def discover (acc : String → Bool) (path : String) : List String :=
  (discover_instr acc path).2

/-- The accessibility checks performed by `registry.discover`, in order. -/
def discover_checks (acc : String → Bool) (path : String) : List String :=
  (discover_instr acc path).1

/-- Embedding of `registry.fetch`: `acc` models
`wiz.filesystem.is_accessible`, `cwd` models `os.getcwd()` (assumed
normalized absolute), `local_registry` models the result of
`registry.get_local()`. -/
def fetch (acc : String → Bool) (cwd : String) (local_registry : Option String)
    (paths : List String) (include_local include_working_directory : Bool) :
    List String :=
  let registries := paths.filter acc
  let registries :=
    if include_working_directory then registries ++ discover acc cwd
    else registries
  match local_registry with
  | some registry_path =>
    if include_local then registries ++ [registry_path] else registries
  | none => registries

/-- Statement device: the path-component suffix `"/f1/f2/..."` formed by a
list of folder names, used to describe start paths below the discovery
root. -/
def pathSuffix : List String → String
  | [] => ""
  | f :: rest => "/" ++ f ++ pathSuffix rest

/-- Statement device: a start path with the given ancestor folder levels
below the discovery root `/jobs/ads`. -/
def mkJobsPath (folders : List String) : String :=
  "/jobs/ads" ++ pathSuffix folders

/-- Statement device: the registry probe path `<level>/.wiz/registry` of
each successive ancestor level below `base`. -/
def levelRegistryPaths (base : String) : List String → List String
  | [] => []
  | f :: rest =>
    ((base ++ "/" ++ f) ++ "/.wiz/registry") ::
      levelRegistryPaths (base ++ "/" ++ f) rest

/-- Outcome of the external `wiz.export_definition` adapter call: either the
definition was serialized, or the target file already exists (Python
`wiz.exception.FileExists`). -/
inductive ExportOutcome where
  | ok
  | fileExists
deriving DecidableEq, Repr

/-- A filesystem mutation attempted by the path installer.  The embedded
`install_to_path` records every adapter call it makes; `removeFile` is
included so that "no deletion is ever performed" is a meaningful statement
about this action type. -/
inductive PathAction where
  | exportAttempt (path : String) (d : Definition) (overwrite : Bool)
  | removeFile (path : String)
deriving DecidableEq, Repr

/-- The exception vocabulary of the install pipeline (classes from
`wiz.exception` referenced by the code and its unit tests). -/
inductive InstallErr where
  | installError (msg : String)
  | definitionExists (msg : String)
  | installNoChanges
deriving DecidableEq, Repr

/-- Result of an install call: one informational success message, or a
raised exception. -/
inductive InstallResult where
  | success (msg : String)
  | error (e : InstallErr)
deriving DecidableEq, Repr

/-- Embedding of `registry.install_to_path` (module
`source/wiz/registry.py`): takes one definition; `isdir` models
`os.path.isdir`, `exportDefinition` models the external
`wiz.export_definition` adapter, and `registry_path` is assumed already
normalized absolute (`os.path.abspath` modelled as identity).  Returns
the list of attempted filesystem mutations together with the outcome. -/
def install_to_path (isdir : String → Bool)
    (exportDefinition : String → Definition → Bool → ExportOutcome)
    (d : Definition) (registry_path : String) (overwrite : Bool) :
    List PathAction × InstallResult :=
  if !isdir registry_path then
    ([], .error (.installError
      ("'" ++ registry_path ++ "' is not a valid registry directory.")))
  else
    let rp :=
      if py_endswith registry_path ".wiz/registry" then registry_path
      else os_path_join (os_path_join registry_path ".wiz") "registry"
    match exportDefinition rp d overwrite with
    | .fileExists =>
      ([.exportAttempt rp d overwrite],
        .error (.definitionExists
          ("Definition '" ++ d.identifier ++ "-" ++ py_str_opt d.version ++
            "' already exists.")))
    | .ok =>
      ([.exportAttempt rp d overwrite],
        .success
          ("Successfully installed " ++ d.identifier ++ "-" ++
            py_str_opt d.version ++ " to registry '" ++ rp ++ "'."))

/-- Model of the reply to `GET {server}/api/registry/all`: `ok` is
`response.ok`; `errorMessage` models `json()["error"]["message"]` when the
error body has that shape; `identifiers` models the keys of
`json()["data"]["content"]`. -/
structure GetResp where
  ok : Bool
  errorMessage : Option String
  identifiers : List String
deriving DecidableEq, Repr

/-- Model of the reply to the release `POST`: `ok`, `status_code`, and the
optional `json()["error"]["message"]`. -/
structure PostResp where
  ok : Bool
  status_code : Nat
  errorMessage : Option String
deriving DecidableEq, Repr

/-- The `POST` request built by `install_to_vcs`: URL, query parameters and
form data, each as ordered key-value lists. -/
structure PostRequest where
  url : String
  params : List (String × String)
  data : List (String × String)
deriving DecidableEq, Repr

/-- Embedding of `registry.install_to_vcs` (module
`source/wiz/registry.py`): takes one definition; `server` models
`wiz.symbol.WIZ_SERVER`, `username` models
`wiz.filesystem.get_username()`, `userFullName` models
`wiz.filesystem.get_name()` (`none` for Python `None`).  Returns the
release `POST` request it issued (if any) together with the outcome. -/
def install_to_vcs (server : String) (getResp : GetResp) (postResp : PostResp)
    (username : String) (userFullName : Option String)
    (d : Definition) (registry_identifier : String) (overwrite : Bool) :
    Option PostRequest × InstallResult :=
  if !getResp.ok then
    (none, .error (.installError
      ("Vault registries could not be retrieved: " ++
        getResp.errorMessage.getD "unknown")))
  else if !(getResp.identifiers.contains registry_identifier) then
    (none, .error (.installError
      ("'" ++ registry_identifier ++ "' is not a valid registry.")))
  else
    let req : PostRequest :=
      { url := server ++ "/api/registry/" ++ registry_identifier ++ "/release"
        params := [("overwrite", json_dumps_bool overwrite)]
        data :=
          [("content", d.encoded),
            ("message",
              "Add '" ++ d.identifier ++ "' [" ++ py_str_opt d.version ++
                "] to registry (" ++ username ++ ")\n\nauthor: " ++
                userFullName.getD "unknown")] }
    if postResp.ok then
      (some req, .success
        ("Successfully installed " ++ d.identifier ++ "-" ++
          py_str_opt d.version ++ " to registry '" ++ registry_identifier ++
          "'."))
    else if postResp.status_code = 409 then
      (some req, .error (.definitionExists
        ("Definition '" ++ d.identifier ++ "-" ++ py_str_opt d.version ++
          "' already exists.")))
    else
      (some req, .error (.installError
        ("Definition could not be installed to registry '" ++
          registry_identifier ++ "': " ++ postResp.errorMessage.getD
          "unknown")))

/-- The terminal mode of the controlling terminal: the mode captured by
`termios.tcgetattr` at entry of `spawn.shell`, or the raw mode set by
`tty.setraw`. -/
inductive TtyMode where
  | original
  | raw
deriving DecidableEq, Repr

/-- One turn of the I/O loop of `spawn.shell`, as seen by its environment:
either `process.poll()` reports the child exited, or `select` returns with
the given readiness of the real stdin and of the pty master side and the
subsequent `os.read` returns `msg`, or the iteration is aborted by an
exception / external signal raised inside the loop. -/
inductive IoEvent where
  | exited
  | ready (stdinReady masterReady : Bool) (msg : List Nat)
  | aborted
deriving DecidableEq, Repr

/-- A byte-forwarding action performed by the loop body of `spawn.shell`:
write to the pty master (`os.write(master_fd, ...)`) or to the real
standard output. -/
inductive IoAction where
  | writePty (msg : List Nat)
  | writeStdout (msg : List Nat)
deriving DecidableEq, Repr

/-- How a run of `spawn.shell` ended: the child exited and the function
completed normally, an exception or signal aborted the loop, or the
supplied event script ran out while the loop was still blocked. -/
inductive ShellOutcome where
  | completed
  | raised
  | blocked
deriving DecidableEq, Repr

/-- The loop body of `spawn.shell` for one `select` return: if the real
stdin is among the ready descriptors its data is written to the pty;
otherwise (`elif`), if the pty master is ready, its data is written to the
real standard output when non-empty. -/
def iterActions (stdinReady masterReady : Bool) (msg : List Nat) : List IoAction :=
  if stdinReady then [.writePty msg]
  else if masterReady then
    (if msg.isEmpty then [] else [.writeStdout msg])
  else []

/-- The `while process.poll() is None` loop of `spawn.shell`, driven by an
event script: accumulates the forwarding actions and reports how the loop
ended. -/
def run_loop : List IoEvent → List IoAction × ShellOutcome
  | [] => ([], .blocked)
  | .exited :: _ => ([], .completed)
  | .aborted :: _ => ([], .raised)
  | .ready s m msg :: rest =>
    let r := run_loop rest
    (iterActions s m msg ++ r.1, r.2)

/-- Embedding of `spawn.shell` (module `source/wiz/spawn.py`): captures the
terminal mode (`old_tty`), sets raw mode, runs the I/O loop, and executes
`termios.tcsetattr(..., old_tty)` only after the loop ends normally — an
exception or signal propagates out of the loop before that statement is
reached.  Returns (actions performed, final terminal mode, outcome). -/
def shell (events : List IoEvent) : List IoAction × TtyMode × ShellOutcome :=
  let r := run_loop events
  match r.2 with
  | .completed => (r.1, .original, .completed)
  | .raised => (r.1, .raw, .raised)
  | .blocked => (r.1, .raw, .blocked)

theorem slash_chars : "/".data = ['/'] := rfl

theorem leadsWith_append_self (xs ys : List Char) :
    leadsWith xs (xs ++ ys) = true := by
  induction xs with
  | nil => rfl
  | cons a as ih => simp [leadsWith, ih]

theorem leadsWith_single_not_mem {c : Char} {xs : List Char} (h : c ∉ xs) :
    leadsWith [c] xs = false := by
  cases xs with
  | nil => rfl
  | cons x t =>
    have hne : c ≠ x := by
      intro he
      exact h (he ▸ List.mem_cons_self x t)
    simp [leadsWith, hne]

theorem leadsWith_rev_append {ys zs : List Char} (hne : ys ≠ [])
    (hmem : '/' ∉ ys) : leadsWith ['/'] (ys.reverse ++ zs) = false := by
  cases hrev : ys.reverse with
  | nil => exact absurd (List.reverse_eq_nil_iff.mp hrev) hne
  | cons c t =>
    have hc : c ∈ ys := List.mem_reverse.mp (by rw [hrev]; exact List.mem_cons_self c t)
    have hci : ('/' : Char) ≠ c := by
      intro he
      rw [he] at hmem
      exact hmem hc
    simp [leadsWith, hci]

theorem join_of_simple (a b : String) (ha : a.data ≠ [])
    (ha2 : leadsWith ['/'] a.data.reverse = false)
    (hb : leadsWith ['/'] b.data = false) :
    os_path_join a b = a ++ "/" ++ b := by
  have ha' : a ≠ "" := by
    intro he
    rw [he] at ha
    exact ha rfl
  simp [os_path_join, py_startswith, py_endswith, slash_chars, hb, ha', ha2]

theorem join_wiz_registry (s : String) (h1 : s.data ≠ [])
    (h2 : leadsWith ['/'] s.data.reverse = false) :
    os_path_join (os_path_join s ".wiz") "registry" = s ++ "/.wiz/registry" := by
  have hwiz : os_path_join s ".wiz" = s ++ "/" ++ ".wiz" :=
    join_of_simple s ".wiz" h1 h2 (by decide)
  have hd : (s ++ "/" ++ ".wiz").data = (s.data ++ ['/']) ++ ".wiz".data := by
    simp [String.data_append, slash_chars]
  have hne2 : (s ++ "/" ++ ".wiz").data ≠ [] := by
    rw [hd]
    simp
  have hend2 : leadsWith ['/'] (s ++ "/" ++ ".wiz").data.reverse = false := by
    rw [hd, List.reverse_append]
    exact leadsWith_rev_append (by decide) (by decide)
  rw [hwiz, join_of_simple _ "registry" hne2 hend2 (by decide)]
  apply String.ext
  simp [String.data_append]

theorem splitChar_no_sep {sep : Char} {xs : List Char} (h : sep ∉ xs) :
    splitChar sep xs = [xs] := by
  induction xs with
  | nil => rfl
  | cons c cs ih =>
    have hc : c ≠ sep := by
      intro he
      exact h (he ▸ List.mem_cons_self c cs)
    have hcs : sep ∉ cs := fun hm => h (List.mem_cons_of_mem c hm)
    rw [splitChar, if_neg hc, ih hcs]

theorem splitChar_append_sep {sep : Char} {xs ys : List Char} (h : sep ∉ xs) :
    splitChar sep (xs ++ sep :: ys) = xs :: splitChar sep ys := by
  induction xs with
  | nil => simp [splitChar]
  | cons c cs ih =>
    have hc : c ≠ sep := by
      intro he
      exact h (he ▸ List.mem_cons_self c cs)
    have hcs : sep ∉ cs := fun hm => h (List.mem_cons_of_mem c hm)
    rw [List.cons_append, splitChar, if_neg hc, ih hcs]

theorem splitChar_levels (folders : List String)
    (h : ∀ f ∈ folders, f.data ≠ [] ∧ '/' ∉ f.data) :
    ∀ w : List Char, '/' ∉ w →
    splitChar '/' (w ++ (pathSuffix folders).data) = w :: folders.map (·.data) := by
  induction folders with
  | nil =>
    intro w hw
    show splitChar '/' (w ++ "".data) = [w]
    rw [show ("".data : List Char) = [] from rfl, List.append_nil]
    exact splitChar_no_sep hw
  | cons f rest ih =>
    intro w hw
    obtain ⟨hf1, hf2⟩ := h f (List.mem_cons_self f rest)
    have hrest : ∀ g ∈ rest, g.data ≠ [] ∧ '/' ∉ g.data :=
      fun g hg => h g (List.mem_cons_of_mem f hg)
    have hd : (pathSuffix (f :: rest)).data =
        '/' :: (f.data ++ (pathSuffix rest).data) := by
      show ("/" ++ f ++ pathSuffix rest).data = _
      simp [String.data_append, slash_chars]
    rw [hd, splitChar_append_sep hw, ih hrest f.data hf2]
    rfl

theorem py_split_mkJobsPath (folders : List String)
    (h : ∀ f ∈ folders, f.data ≠ [] ∧ '/' ∉ f.data) :
    py_split (mkJobsPath folders) '/' = ["", "jobs", "ads"] ++ folders := by
  unfold py_split mkJobsPath
  have hd : ("/jobs/ads" ++ pathSuffix folders).data =
      [] ++ '/' :: ("jobs".data ++ '/' :: ("ads".data ++ (pathSuffix folders).data)) := by
    simp [String.data_append]
  rw [hd, splitChar_append_sep (by decide), splitChar_append_sep (by decide),
    splitChar_levels folders h "ads".data (by decide)]
  show ([[], "jobs".data, "ads".data] ++ folders.map (·.data)).map
      (fun l => (⟨l⟩ : String)) = _
  rw [List.map_append, List.map_map]
  show ["", "jobs", "ads"] ++ folders.map _ = _
  rw [show (List.map ((fun l => (⟨l⟩ : String)) ∘ fun s => s.data) folders) = folders
    from List.map_id folders]

theorem levelRegistryPaths_length (base : String) (folders : List String) :
    (levelRegistryPaths base folders).length = folders.length := by
  induction folders generalizing base with
  | nil => rfl
  | cons f rest ih => simp [levelRegistryPaths, ih]

theorem discover_loop_spec (acc : String → Bool) (folders : List String)
    (h : ∀ f ∈ folders, f.data ≠ [] ∧ '/' ∉ f.data) :
    ∀ pfx : String, pfx.data ≠ [] → leadsWith ['/'] pfx.data.reverse = false →
    discover_loop acc pfx folders =
      (levelRegistryPaths pfx folders, (levelRegistryPaths pfx folders).filter acc) := by
  induction folders with
  | nil => intro pfx _ _; rfl
  | cons f rest ih =>
    intro pfx hne hend
    obtain ⟨hf1, hf2⟩ := h f (List.mem_cons_self f rest)
    have hrest : ∀ g ∈ rest, g.data ≠ [] ∧ '/' ∉ g.data :=
      fun g hg => h g (List.mem_cons_of_mem f hg)
    have hjoin : os_path_join pfx f = pfx ++ "/" ++ f :=
      join_of_simple pfx f hne hend (leadsWith_single_not_mem hf2)
    have hd : (pfx ++ "/" ++ f).data = (pfx.data ++ ['/']) ++ f.data := by
      simp [String.data_append, slash_chars]
    have hne2 : (pfx ++ "/" ++ f).data ≠ [] := by
      rw [hd]
      simp [hf1]
    have hend2 : leadsWith ['/'] (pfx ++ "/" ++ f).data.reverse = false := by
      rw [hd, List.reverse_append]
      exact leadsWith_rev_append hf1 hf2
    have hreg := join_wiz_registry (pfx ++ "/" ++ f) hne2 hend2
    show (os_path_join (os_path_join (os_path_join pfx f) ".wiz") "registry" ::
        (discover_loop acc (os_path_join pfx f) rest).1,
      if acc (os_path_join (os_path_join (os_path_join pfx f) ".wiz") "registry") then
        os_path_join (os_path_join (os_path_join pfx f) ".wiz") "registry" ::
          (discover_loop acc (os_path_join pfx f) rest).2
      else (discover_loop acc (os_path_join pfx f) rest).2) = _
    rw [hjoin, hreg, ih hrest (pfx ++ "/" ++ f) hne2 hend2]
    show _ = (levelRegistryPaths pfx (f :: rest),
      ((((pfx ++ "/" ++ f) ++ "/.wiz/registry") ::
        levelRegistryPaths (pfx ++ "/" ++ f) rest).filter acc))
    rw [List.filter_cons]
    rfl

theorem discover_instr_mkJobsPath (acc : String → Bool) (folders : List String)
    (h : ∀ f ∈ folders, f.data ≠ [] ∧ '/' ∉ f.data) :
    discover_instr acc (mkJobsPath folders) =
      (levelRegistryPaths "/jobs/ads" folders,
        (levelRegistryPaths "/jobs/ads" folders).filter acc) := by
  have hroot : discoveryRoot = "/jobs/ads" := by decide
  have hpre : py_startswith (mkJobsPath folders) discoveryRoot = true := by
    rw [hroot]
    unfold py_startswith mkJobsPath
    rw [String.data_append]
    exact leadsWith_append_self _ _
  have hdrop : ((["", "jobs", "ads"] : List String) ++ folders).drop 3 = folders := by
    rw [show (3 : Nat) = (["", "jobs", "ads"] : List String).length from rfl]
    exact List.drop_left _ _
  unfold discover_instr
  rw [hpre, if_pos rfl, py_split_mkJobsPath folders h, hdrop, hroot]
  exact discover_loop_spec acc folders h "/jobs/ads" (by decide) (by decide)

/-- Claim C7: for every start path under the discovery root `/jobs/ads`
with ancestor folder levels `folders` (each a non-empty, slash-free path
component), fully iterating `discover` performs exactly `folders.length`
accessibility checks, one per level on `<level>/.wiz/registry`, and yields
exactly the registry paths of the accessible levels, in shallow-to-deep
order. -/
theorem c7_discover_under_root (acc : String → Bool) (folders : List String)
    (h : ∀ f ∈ folders, f.data ≠ [] ∧ '/' ∉ f.data) :
    discover_checks acc (mkJobsPath folders) = levelRegistryPaths "/jobs/ads" folders ∧
    (discover_checks acc (mkJobsPath folders)).length = folders.length ∧
    discover acc (mkJobsPath folders) =
      (levelRegistryPaths "/jobs/ads" folders).filter acc := by
  have hmain := discover_instr_mkJobsPath acc folders h
  refine ⟨?_, ?_, ?_⟩
  · show (discover_instr acc (mkJobsPath folders)).1 = _
    rw [hmain]
  · show (discover_instr acc (mkJobsPath folders)).1.length = _
    rw [hmain]
    exact levelRegistryPaths_length _ _
  · show (discover_instr acc (mkJobsPath folders)).2 = _
    rw [hmain]

/-- Witness for C7 at the concrete start path
`/jobs/ads/project/identity`. -/
theorem c7_discover_under_root_witness :
    (∀ f ∈ (["project", "identity"] : List String), f.data ≠ [] ∧ '/' ∉ f.data) ∧
    (discover_checks (fun _ => true) (mkJobsPath ["project", "identity"]) =
        levelRegistryPaths "/jobs/ads" ["project", "identity"] ∧
      (discover_checks (fun _ => true) (mkJobsPath ["project", "identity"])).length =
        (["project", "identity"] : List String).length ∧
      discover (fun _ => true) (mkJobsPath ["project", "identity"]) =
        (levelRegistryPaths "/jobs/ads" ["project", "identity"]).filter
          (fun _ => true)) :=
  ⟨by decide,
    c7_discover_under_root (fun _ => true) ["project", "identity"] (by decide)⟩

/-- Claim C6 counterexample: `/jobs/adsfoo/x` is not under the directory
`/jobs/ads` (it is neither the root itself nor below `/jobs/ads/`), yet
`discover` performs one accessibility check on it and yields a path — the
guard in the code is a string-prefix test, not a directory-descendant
test. -/
theorem c6_not_under_counterexample :
    (¬ ("/jobs/adsfoo/x" = "/jobs/ads" ∨
        py_startswith "/jobs/adsfoo/x" "/jobs/ads/" = true)) ∧
    discover_checks (fun _ => true) "/jobs/adsfoo/x" =
      ["/jobs/ads/x/.wiz/registry"] ∧
    discover (fun _ => true) "/jobs/adsfoo/x" = ["/jobs/ads/x/.wiz/registry"] := by
  decide

/-- Claim C6 as amended: for every start path whose absolutized form does
not start with the string `/jobs/ads`, `discover` yields an empty sequence
and performs zero accessibility checks. -/
theorem c6_outside_root_short_circuit (acc : String → Bool) (path : String)
    (h : py_startswith path discoveryRoot = false) :
    discover_checks acc path = [] ∧ discover acc path = [] := by
  unfold discover_checks discover discover_instr
  simp [h]

/-- Witness for the amended C6 at the concrete path `/somewhere/else`. -/
theorem c6_outside_root_short_circuit_witness :
    py_startswith "/somewhere/else" discoveryRoot = false ∧
    (discover_checks (fun _ => true) "/somewhere/else" = [] ∧
      discover (fun _ => true) "/somewhere/else" = []) :=
  ⟨by decide, c6_outside_root_short_circuit (fun _ => true) "/somewhere/else"
    (by decide)⟩

/-- Claim C8 (divergence witness): `fetch` appends an accessible relative
explicit path verbatim, without resolving it against the current working
directory, while preserving the explicit / discovered / local ordering. -/
theorem c8_fetch_keeps_relative_path :
    fetch (fun _ => true) "/home/user" (some "/usr/people/me/.wiz/registry")
        ["/path/to/registry1", "path/to/registry2"] true true =
      ["/path/to/registry1", "path/to/registry2",
        "/usr/people/me/.wiz/registry"] ∧
    "/home/user/path/to/registry2" ∉
      fetch (fun _ => true) "/home/user" (some "/usr/people/me/.wiz/registry")
        ["/path/to/registry1", "path/to/registry2"] true true := by
  decide

/-- Claim C2 (divergence witness): with an existing conflicting definition
and overwrite false, `install_to_path` performs the export attempt (its
only conflict probe is the mutation call itself) and raises the
count-free `DefinitionExists` error, so no conflict-before-mutation batch
phase exists. -/
theorem c2_conflict_goes_through_export :
    install_to_path (fun _ => true) (fun _ _ _ => .fileExists)
        ⟨"bar", none, "NEW"⟩ "/path/to/registry" false =
      ([.exportAttempt "/path/to/registry/.wiz/registry"
          ⟨"bar", none, "NEW"⟩ false],
        .error (.definitionExists "Definition 'bar-None' already exists.")) ∧
    (install_to_path (fun _ => true) (fun _ _ _ => .fileExists)
        ⟨"bar", none, "NEW"⟩ "/path/to/registry" false).1 ≠ [] := by
  decide

/-- Claim C4 (divergence witness): a definition already present in
identical form is not skipped silently — the export attempt hits the
existing file and `install_to_path` raises `DefinitionExists`, never
`InstallNoChanges`. -/
theorem c4_identical_raises_definition_exists :
    install_to_path (fun _ => true) (fun _ _ _ => .fileExists)
        ⟨"baz", some "2.5.1", "SAME"⟩ "/path/to/registry" false =
      ([.exportAttempt "/path/to/registry/.wiz/registry"
          ⟨"baz", some "2.5.1", "SAME"⟩ false],
        .error (.definitionExists "Definition 'baz-2.5.1' already exists.")) ∧
    (install_to_path (fun _ => true) (fun _ _ _ => .fileExists)
        ⟨"baz", some "2.5.1", "SAME"⟩ "/path/to/registry" false).2 ≠
      .error .installNoChanges := by
  decide

/-- Claim C5 (divergence witness): with overwrite true `install_to_path`
only ever performs a single export of its one definition to the derived
registry path — it never deletes the existing definition's backing file
and reports a per-definition message, not a count. -/
theorem c5_overwrite_never_deletes :
    install_to_path (fun _ => true) (fun _ _ _ => .ok)
        ⟨"baz", some "2.5.1", "NEW"⟩ "/path/to/registry" true =
      ([.exportAttempt "/path/to/registry/.wiz/registry"
          ⟨"baz", some "2.5.1", "NEW"⟩ true],
        .success
          "Successfully installed baz-2.5.1 to registry '/path/to/registry/.wiz/registry'.") ∧
    PathAction.removeFile "/path/to/registry/baz/baz-2.5.1.json" ∉
      (install_to_path (fun _ => true) (fun _ _ _ => .ok)
        ⟨"baz", some "2.5.1", "NEW"⟩ "/path/to/registry" true).1 := by
  decide

/-- Claim C3 (divergence witness): a 417 "nothing to commit" reply to the
release POST is handled by the generic else-branch of `install_to_vcs`,
producing `InstallError` with the server message or "unknown" — not
`InstallNoChanges`. -/
theorem c3_status_417_maps_to_install_error :
    (install_to_vcs "https://wiz.themill.com" ⟨true, none, ["registry-id"]⟩
        ⟨false, 417, none⟩ "john" (some "John Doe")
        ⟨"foo", some "0.1.0", "ENC"⟩ "registry-id" false).2 =
      .error (.installError
        "Definition could not be installed to registry 'registry-id': unknown") ∧
    (install_to_vcs "https://wiz.themill.com" ⟨true, none, ["registry-id"]⟩
        ⟨false, 417, none⟩ "john" (some "John Doe")
        ⟨"foo", some "0.1.0", "ENC"⟩ "registry-id" false).2 ≠
      .error .installNoChanges := by
  decide

/-- Claim C9 (divergence witness): the release POST issued by
`install_to_vcs` carries form fields named "content" (one serialized
definition) and "message" (a commit message), not "contents" (a
json-encoded array) and "author"; URL and overwrite query parameter do
match the claim. -/
theorem c9_post_body_is_content_message :
    install_to_vcs "https://wiz.themill.com" ⟨true, none, ["registry-id"]⟩
        ⟨true, 200, none⟩ "john" (some "John Doe")
        ⟨"foo", some "0.1.0", "ENC"⟩ "registry-id" false =
      (some
        { url := "https://wiz.themill.com/api/registry/registry-id/release",
          params := [("overwrite", "false")],
          data := [("content", "ENC"),
            ("message", "Add 'foo' [0.1.0] to registry (john)\n\nauthor: John Doe")] },
        .success "Successfully installed foo-0.1.0 to registry 'registry-id'.") ∧
    (install_to_vcs "https://wiz.themill.com" ⟨true, none, ["registry-id"]⟩
        ⟨true, 200, none⟩ "john" (some "John Doe")
        ⟨"foo", some "0.1.0", "ENC"⟩ "registry-id" false).1.map
      (fun r => r.data.map Prod.fst) = some ["content", "message"] := by
  decide

/-- Claim C1 counterexample: when an exception or external signal aborts
the I/O loop, `shell` exits on that path with the terminal still in raw
mode — the captured mode is not restored, refuting restoration on every
exit path. -/
theorem c1_signal_leaves_raw_counterexample :
    shell [IoEvent.aborted] = ([], TtyMode.raw, ShellOutcome.raised) ∧
    TtyMode.raw ≠ TtyMode.original := by
  decide

/-- Claim C1 as amended: `shell` restores the captured terminal mode only
on the normal-completion path (child exited); on every abnormal ending of
the loop (error or signal abort, or still blocked) the terminal is left in
raw mode. -/
theorem c1_restore_only_on_normal_exit (events : List IoEvent) :
    ((shell events).2.2 = ShellOutcome.completed →
      (shell events).2.1 = TtyMode.original) ∧
    ((shell events).2.2 ≠ ShellOutcome.completed →
      (shell events).2.1 = TtyMode.raw) := by
  cases hr : (run_loop events).2 <;> simp [shell, hr]

/-- Witness for the amended C1: restored after a normal child exit,
left raw after a signal abort. -/
theorem c1_restore_only_on_normal_exit_witness :
    (shell [IoEvent.exited]).2.1 = TtyMode.original ∧
    (shell [IoEvent.ready true false [3], IoEvent.aborted]).2.1 = TtyMode.raw :=
  ⟨(c1_restore_only_on_normal_exit [IoEvent.exited]).1 rfl,
    (c1_restore_only_on_normal_exit [IoEvent.ready true false [3], IoEvent.aborted]).2
      (by decide)⟩

/-- Claim C10: in any iteration of the multiplexing loop in which the real
standard input is readable, only stdin data is forwarded (a single write
to the pty), and a write to standard output can only happen in an
iteration where stdin was not among the ready descriptors. -/
theorem c10_stdin_priority (s m : Bool) (msg : List Nat) :
    (s = true → iterActions s m msg = [IoAction.writePty msg]) ∧
    (∀ d, IoAction.writeStdout d ∈ iterActions s m msg → s = false) := by
  cases s <;> simp [iterActions]

/-- Witness for C10 at a concrete iteration with both sides ready. -/
theorem c10_stdin_priority_witness :
    iterActions true true [7] = [IoAction.writePty [7]] :=
  (c10_stdin_priority true true [7]).1 rfl

end Wiz
